import Mathlib

/-!
Shallow embedding of the Cleaver split-testing engine
(`src/cleaver/base.py`) and proofs about it.

The engine's collaborators (backend, identity provider, random source)
are external to the engine; their responses are passed to the embedded
`split`/`score` as explicit oracle parameters, and every backend call the
engine makes is recorded in an explicit trace, so interaction-shaped
properties (which calls happen, in which order, with which arguments)
are provable.
-/

namespace Cleaver

/-- A Python value, as far as the engine inspects values: strings,
integers, booleans and `None`.  (Arbitrary variant *values* are carried
opaquely; this universe is enough because the engine only ever
type-checks names and weights and compares keys.) -/
inductive PyVal where
  | str (s : String)
  | int (n : Int)
  | bool (b : Bool)
  | none
  deriving DecidableEq, Repr

/-- `isinstance(v, string_types)` — `string_types` is `(str,)`. -/
def PyVal.isStr : PyVal → Bool
  | .str _ => true
  | _ => false

/-- `isinstance(v, int)` — in Python, `bool` is a subclass of `int`. -/
def PyVal.isInt : PyVal → Bool
  | .int _ => true
  | .bool _ => true
  | _ => false

/-- Extract the string payload (only used under an `isStr` guard). -/
def PyVal.asStr : PyVal → String
  | .str s => s
  | _ => ""

/-- A caller-supplied variant declaration tuple: the code accepts tuples
of one, two or three elements (`('key',)`, `('key', value)`,
`('key', value, weight)`). -/
inductive Decl where
  | one (k : PyVal)
  | two (k v : PyVal)
  | three (k v w : PyVal)
  deriving DecidableEq, Repr

/-- The key slot of a declaration (`v[0]`). -/
def Decl.key : Decl → PyVal
  | .one k => k
  | .two k _ => k
  | .three k _ _ => k

/-- The value slot after default filling (`None` for 1-tuples). -/
def Decl.value : Decl → PyVal
  | .one _ => .none
  | .two _ v => v
  | .three _ v _ => v

/-- The weight slot after default filling (`1` unless a 3-tuple). -/
def Decl.weight : Decl → PyVal
  | .one _ => .int 1
  | .two _ _ => .int 1
  | .three _ _ w => w

/-- Errors the engine can raise.  The code raises `RuntimeError` for
every caller-misuse condition; the spec's taxonomy calls these
`ConfigurationError`, so that name is used here.  `attributeError` and
`keyError` model the interpreter-level faults reachable when a backend
oracle misbehaves (`None.name`, missing dict key). -/
inductive CleaverError where
  | configurationError (msg : String)
  | attributeError (msg : String)
  | keyError
  deriving DecidableEq, Repr

/-- Message of the experiment-name type check. -/
def nameErrMsg : String := "Invalid experiment name: must be a string."

/-- Message of the two-variant arity check. -/
def arityErrMsg : String :=
  "Experiments must have at least two variants (a control and an alternative)."

/-- Message of the variant-key type check. -/
def keyErrMsg : String := "Invalid variant name: must be a string."

/-- Message of the weight type check. -/
def weightErrMsg : String := "Invalid variant weight: must be an integer."

/-- Message of the existing-experiment mismatch check. -/
def mismatchMsg : String :=
  "An experiment named already exists with different variants."

/-- `add_defaults` from `Cleaver._parse_variants`: pad a declaration to
three slots, then type-check the key (must be a string) and the weight
(must be an `int` — positivity is *not* checked). -/
def add_defaults (v : Decl) : Except CleaverError (PyVal × PyVal × PyVal) :=
  if ¬ v.key.isStr then
    .error (.configurationError keyErrMsg)
  else if ¬ v.weight.isInt then
    .error (.configurationError weightErrMsg)
  else
    .ok (v.key, v.value, v.weight)

/-- Left-to-right effectful map over `Except`, stopping at the first
error — the semantics of Python's lazy `map(add_defaults, variants)`
being consumed by `zip_longest`: the first invalid declaration raises. -/
def mapExcept (f : Decl → Except CleaverError (PyVal × PyVal × PyVal)) :
    List Decl → Except CleaverError (List (PyVal × PyVal × PyVal))
  | [] => .ok []
  | d :: ds =>
    match f d with
    | .error e => .error e
    | .ok t => (mapExcept f ds).map (fun ts => t :: ts)

/-- The declaration list `_parse_variants` actually operates on: empty
input is replaced by the implicit `[('True', True), ('False', False)]`
pair. -/
def effectiveVariants (variants : List Decl) : List Decl :=
  if variants.length = 0 then
    [Decl.two (.str "True") (.bool true), Decl.two (.str "False") (.bool false)]
  else variants

/-- `Cleaver._parse_variants`: after the empty-input replacement, a
single declaration is a configuration error; otherwise each declaration
is default-filled and type-checked and the triples are transposed
(`zip_longest` — every row has exactly three slots here, so it is a
plain transpose) into the parallel `(keys, values, weights)` sequences. -/
def parse_variants (variants : List Decl) :
    Except CleaverError (List PyVal × List PyVal × List PyVal) :=
  if (effectiveVariants variants).length = 1 then
    .error (.configurationError arityErrMsg)
  else
    (mapExcept add_defaults (effectiveVariants variants)).map
      (fun ts => (ts.map (fun t => t.1), ts.map (fun t => t.2.1), ts.map (fun t => t.2.2)))

/-- An experiment record as the backend returns it
(`experiment.name`, `experiment.variants`). -/
structure Experiment where
  name : String
  variants : List PyVal
  deriving DecidableEq, Repr

/-- Python `set(a) != set(b)` negated: membership-based unordered
equality of two key lists. -/
def pySetEq (a b : List PyVal) : Bool :=
  a.all (fun x => decide (x ∈ b)) && b.all (fun x => decide (x ∈ a))

/-- `dict(zip(keys, values))[k]`: a Python dict built left to right, so a
later duplicate key overwrites an earlier one; lookup of a missing key
is a `KeyError` (modelled as `Option.none`). -/
def dictLookup (pairs : List (PyVal × PyVal)) (k : PyVal) : Option PyVal :=
  (pairs.reverse.find? (fun p => p.1 = k)).map (fun p => p.2)

/-- One call the engine makes on its backend collaborator, with the
arguments it passes. -/
inductive Call where
  | getExperiment (name : String) (keys : List PyVal)
  | saveExperiment (name : String) (keys : List PyVal)
  | getVariant (ident : PyVal) (expName : String)
  | participate (ident : PyVal) (expName : String) (variant : PyVal)
  | scoreConv (expName : String) (variant : Option PyVal)
  deriving DecidableEq, Repr

/-- Is this call a backend write (`save_experiment`, `participate` or
`score`)?  Reads (`get_experiment`, `get_variant`) are not writes. -/
def Call.isWrite : Call → Bool
  | .saveExperiment _ _ => true
  | .participate _ _ _ => true
  | .scoreConv _ _ => true
  | _ => false

/-- Is this call a backend `score` (conversion record)? -/
def Call.isScoreConv : Call → Bool
  | .scoreConv _ _ => true
  | _ => false

/-- The assignment phase of `Cleaver.split`, once an experiment record
`e` is in hand: read the identity's stored variant; if absent, draw one
(the draw the process-wide random source would produce is the oracle
parameter `draw`) and persist it via `participate`; finally return
`dict(zip(keys, values))[variant]`. -/
def assign_and_return (keys values : List PyVal) (ident : PyVal)
    (e : Experiment) (stored : Option PyVal) (draw : PyVal) :
    Except CleaverError PyVal × List Call :=
  match stored with
  | some v =>
      (match dictLookup (keys.zip values) v with
       | some r => .ok r
       | none => .error .keyError,
       [Call.getVariant ident e.name])
  | none =>
      (match dictLookup (keys.zip values) draw with
       | some r => .ok r
       | none => .error .keyError,
       [Call.getVariant ident e.name, Call.participate ident e.name draw])

/-- `Cleaver.split`.  Oracle parameters stand for the collaborators'
responses in the order the code consults them: `exp1` is the backend's
answer to the first `get_experiment`, `exp2` its answer to the re-read
after `save_experiment` (consulted only on the absent branch), `stored`
the backend's `get_variant` answer for the current identity, and `draw`
the key the random source would select.  Returns the call outcome
together with the trace of backend calls performed. -/
def split (experiment_name : PyVal) (variants : List Decl) (ident : PyVal)
    (exp1 exp2 : Option Experiment) (stored : Option PyVal) (draw : PyVal) :
    Except CleaverError PyVal × List Call :=
  if ¬ experiment_name.isStr then
    (.error (.configurationError nameErrMsg), [])
  else
    match parse_variants variants with
    | .error e => (.error e, [])
    | .ok (keys, values, _weights) =>
      let name := experiment_name.asStr
      match exp1 with
      | none =>
          let pre := [Call.getExperiment name keys, Call.saveExperiment name keys,
                      Call.getExperiment name keys]
          match exp2 with
          | none =>
              (.error (.attributeError "NoneType object has no attribute name"), pre)
          | some e =>
              let step := assign_and_return keys values ident e stored draw
              (step.1, pre ++ step.2)
      | some e =>
          if pySetEq e.variants keys then
            let step := assign_and_return keys values ident e stored draw
            (step.1, Call.getExperiment name keys :: step.2)
          else
            (.error (.configurationError mismatchMsg), [Call.getExperiment name keys])

/-- `Cleaver.score`: look up the identity's variant (oracle `stored`,
possibly absent) and delegate to the backend's `score` with whatever the
lookup returned — no engine-level error, no branching. -/
def score (experiment_name : String) (ident : PyVal) (stored : Option PyVal) :
    Except CleaverError Unit × List Call :=
  (.ok (), [Call.getVariant ident experiment_name,
            Call.scoreConv experiment_name stored])

/-- The experiment record the rest of `split` operates on, as a function
of the two `get_experiment` oracle answers: the re-read on the absent
branch, the checked first read on the present branch (`none` when the
mismatch check fires). -/
def resolvedExperiment (exp1 exp2 : Option Experiment) (keys : List PyVal) :
    Option Experiment :=
  match exp1 with
  | none => exp2
  | some e => if pySetEq e.variants keys then some e else none

/-- The backend calls `split` makes while resolving the experiment
record: a single read when the experiment already exists, or
read/create/re-read when the first read came back absent. -/
def expPhaseTrace (name : String) (keys : List PyVal) (exp1 : Option Experiment) :
    List Call :=
  match exp1 with
  | Option.none =>
      [Call.getExperiment name keys, Call.saveExperiment name keys,
       Call.getExperiment name keys]
  | some _ => [Call.getExperiment name keys]

/-! ## Helper lemmas -/

theorem pySetEq_iff (a b : List PyVal) :
    pySetEq a b = true ↔ ∀ x, x ∈ a ↔ x ∈ b := by
  unfold pySetEq
  simp only [Bool.and_eq_true, List.all_eq_true, decide_eq_true_eq]
  constructor
  · rintro ⟨h1, h2⟩ x
    exact ⟨fun hx => h1 x hx, fun hx => h2 x hx⟩
  · intro h
    exact ⟨fun x hx => (h x).mp hx, fun x hx => (h x).mpr hx⟩

theorem effectiveVariants_of_ne_nil (vs : List Decl) (h : vs ≠ []) :
    effectiveVariants vs = vs := by
  unfold effectiveVariants
  simp [List.length_eq_zero, h]

theorem add_defaults_ok (d : Decl) (t : PyVal × PyVal × PyVal)
    (h : add_defaults d = .ok t) :
    d.key.isStr = true ∧ d.weight.isInt = true ∧ t = (d.key, d.value, d.weight) := by
  unfold add_defaults at h
  by_cases h1 : d.key.isStr = true
  · by_cases h2 : d.weight.isInt = true
    · rw [if_neg (not_not_intro h1), if_neg (not_not_intro h2)] at h
      injection h with h
      exact ⟨h1, h2, h.symm⟩
    · rw [if_neg (not_not_intro h1), if_pos h2] at h
      cases h
  · rw [if_pos h1] at h
    cases h

theorem add_defaults_error_config (d : Decl) (e : CleaverError)
    (h : add_defaults d = .error e) : ∃ m, e = .configurationError m := by
  unfold add_defaults at h
  by_cases h1 : d.key.isStr = true
  · by_cases h2 : d.weight.isInt = true
    · rw [if_neg (not_not_intro h1), if_neg (not_not_intro h2)] at h
      cases h
    · rw [if_neg (not_not_intro h1), if_pos h2] at h
      injection h with h
      exact ⟨weightErrMsg, h.symm⟩
  · rw [if_pos h1] at h
    injection h with h
    exact ⟨keyErrMsg, h.symm⟩

theorem mapExcept_ok_all (vs : List Decl) (ts : List (PyVal × PyVal × PyVal))
    (h : mapExcept add_defaults vs = .ok ts) :
    ∀ d ∈ vs, d.key.isStr = true ∧ d.weight.isInt = true := by
  induction vs generalizing ts with
  | nil => simp
  | cons d ds ih =>
    intro d' hd'
    unfold mapExcept at h
    cases hf : add_defaults d with
    | error e => rw [hf] at h; cases h
    | ok t =>
      rw [hf] at h
      cases hm : mapExcept add_defaults ds with
      | error e => rw [hm] at h; cases h
      | ok ts' =>
        rw [hm] at h
        rcases List.mem_cons.mp hd' with rfl | hd'
        · exact ⟨(add_defaults_ok d' t hf).1, (add_defaults_ok d' t hf).2.1⟩
        · exact ih ts' hm d' hd'

theorem mapExcept_error_config (vs : List Decl) (e : CleaverError)
    (h : mapExcept add_defaults vs = .error e) :
    ∃ m, e = .configurationError m := by
  induction vs with
  | nil => cases h
  | cons d ds ih =>
    unfold mapExcept at h
    cases hf : add_defaults d with
    | error e' =>
      rw [hf] at h
      injection h with h
      subst h
      exact add_defaults_error_config d e' hf
    | ok t =>
      rw [hf] at h
      cases hm : mapExcept add_defaults ds with
      | error e' =>
        rw [hm] at h
        injection h with h
        subst h
        exact ih hm
      | ok ts => rw [hm] at h; cases h

theorem parse_variants_lengths (vs : List Decl) (keys values weights : List PyVal)
    (hp : parse_variants vs = .ok (keys, values, weights)) :
    keys.length = values.length ∧ values.length = weights.length := by
  unfold parse_variants at hp
  split at hp
  · cases hp
  · cases hm : mapExcept add_defaults (effectiveVariants vs) with
    | error e => rw [hm] at hp; cases hp
    | ok ts =>
      rw [hm] at hp
      rw [show (Except.ok ts : Except CleaverError _).map
            (fun ts => (ts.map (fun t => t.1), ts.map (fun t => t.2.1),
                        ts.map (fun t => t.2.2)))
          = .ok (ts.map (fun t => t.1), ts.map (fun t => t.2.1),
                 ts.map (fun t => t.2.2)) from rfl] at hp
      injection hp with hp
      rw [Prod.mk.injEq, Prod.mk.injEq] at hp
      obtain ⟨h1, h2, h3⟩ := hp
      subst h1 h2 h3
      simp

theorem find?_split {α : Type} (l : List α) (p : α → Bool) (a : α)
    (h : l.find? p = some a) :
    p a = true ∧ ∃ l1 l2, l = l1 ++ a :: l2 ∧ ∀ x ∈ l1, p x = false := by
  induction l with
  | nil => cases h
  | cons x xs ih =>
    by_cases hx : p x = true
    · rw [List.find?_cons_of_pos _ hx] at h
      injection h with h
      subst h
      exact ⟨hx, [], xs, rfl, by simp⟩
    · rw [List.find?_cons_of_neg _ (by simpa using hx)] at h
      obtain ⟨hpa, l1, l2, rfl, hall⟩ := ih h
      refine ⟨hpa, x :: l1, l2, rfl, ?_⟩
      intro y hy
      rcases List.mem_cons.mp hy with rfl | hy
      · simpa using hx
      · exact hall y hy

theorem dictLookup_last (pairs : List (PyVal × PyVal)) (k v : PyVal)
    (h : dictLookup pairs k = some v) :
    ∃ pre post, pairs = pre ++ (k, v) :: post ∧ ∀ q ∈ post, q.1 ≠ k := by
  unfold dictLookup at h
  cases hf : pairs.reverse.find? (fun p => decide (p.1 = k)) with
  | none => rw [hf] at h; cases h
  | some q =>
    obtain ⟨q1, q2⟩ := q
    rw [hf] at h
    obtain ⟨hq, l1, l2, hrev, hall⟩ := find?_split _ _ _ hf
    have hq1 : q1 = k := by simpa using hq
    have hq2 : q2 = v := by simpa using h
    subst hq1
    subst hq2
    have hpairs : pairs = l2.reverse ++ (q1, q2) :: l1.reverse := by
      have h2 := congrArg List.reverse hrev
      rw [List.reverse_reverse] at h2
      rw [h2, List.reverse_append, List.reverse_cons, List.append_assoc]
      rfl
    refine ⟨l2.reverse, l1.reverse, hpairs, ?_⟩
    intro x hx
    have hx' := hall x (List.mem_reverse.mp hx)
    simpa using hx'

theorem dictLookup_mem (pairs : List (PyVal × PyVal)) (k v : PyVal)
    (h : dictLookup pairs k = some v) : (k, v) ∈ pairs := by
  obtain ⟨pre, post, hsplit, _⟩ := dictLookup_last pairs k v h
  rw [hsplit]
  simp

theorem dictLookup_isSome_of_mem (keys values : List PyVal) (k : PyVal)
    (hlen : keys.length = values.length) (hk : k ∈ keys) :
    ∃ v, dictLookup (keys.zip values) k = some v := by
  have hmap : (keys.zip values).map Prod.fst = keys :=
    List.map_fst_zip keys values (le_of_eq hlen)
  have hmem : k ∈ (keys.zip values).map Prod.fst := by rw [hmap]; exact hk
  obtain ⟨p, hp, hpk⟩ := List.mem_map.mp hmem
  have hpr : p ∈ (keys.zip values).reverse := List.mem_reverse.mpr hp
  cases hf : (keys.zip values).reverse.find? (fun q => decide (q.1 = k)) with
  | none =>
    have hnone := List.find?_eq_none.mp hf p hpr
    simp only [decide_eq_true_eq] at hnone
    exact absurd hpk hnone
  | some q =>
    exact ⟨q.2, by unfold dictLookup; rw [hf]; rfl⟩

theorem assign_ok_mem (keys values : List PyVal) (ident : PyVal)
    (e : Experiment) (stored : Option PyVal) (draw : PyVal) (v : PyVal)
    (h : (assign_and_return keys values ident e stored draw).1 = .ok v) :
    v ∈ values := by
  unfold assign_and_return at h
  have main : ∀ w : PyVal,
      (match dictLookup (keys.zip values) w with
        | some r => (Except.ok r : Except CleaverError PyVal)
        | none => .error .keyError) = .ok v → v ∈ values := by
    intro w hw
    cases hd : dictLookup (keys.zip values) w with
    | none => rw [hd] at hw; cases hw
    | some r =>
      rw [hd] at hw
      injection hw with hw
      subst hw
      exact (List.of_mem_zip (dictLookup_mem _ _ _ hd)).2
  cases stored with
  | some w => exact main w h
  | none => exact main draw h

theorem assign_no_config_error (keys values : List PyVal) (ident : PyVal)
    (e : Experiment) (stored : Option PyVal) (draw : PyVal) (m : String) :
    (assign_and_return keys values ident e stored draw).1
      ≠ .error (.configurationError m) := by
  unfold assign_and_return
  cases stored with
  | some w =>
    cases hd : dictLookup (keys.zip values) w <;> simp [hd]
  | none =>
    cases hd : dictLookup (keys.zip values) draw <;> simp [hd]

theorem split_eq_none_none (en : PyVal) (vs : List Decl) (ident : PyVal)
    (stored : Option PyVal) (draw : PyVal)
    (keys values weights : List PyVal)
    (hs : en.isStr = true)
    (hp : parse_variants vs = .ok (keys, values, weights)) :
    split en vs ident Option.none Option.none stored draw
      = (.error (.attributeError "NoneType object has no attribute name"),
         [Call.getExperiment en.asStr keys, Call.saveExperiment en.asStr keys,
          Call.getExperiment en.asStr keys]) := by
  unfold split
  rw [if_neg (not_not_intro hs), hp]

theorem split_eq_none_some (en : PyVal) (vs : List Decl) (ident : PyVal)
    (e : Experiment) (stored : Option PyVal) (draw : PyVal)
    (keys values weights : List PyVal)
    (hs : en.isStr = true)
    (hp : parse_variants vs = .ok (keys, values, weights)) :
    split en vs ident Option.none (some e) stored draw
      = ((assign_and_return keys values ident e stored draw).1,
         [Call.getExperiment en.asStr keys, Call.saveExperiment en.asStr keys,
          Call.getExperiment en.asStr keys]
           ++ (assign_and_return keys values ident e stored draw).2) := by
  unfold split
  rw [if_neg (not_not_intro hs), hp]

theorem split_eq_some (en : PyVal) (vs : List Decl) (ident : PyVal)
    (e : Experiment) (e2 : Option Experiment) (stored : Option PyVal) (draw : PyVal)
    (keys values weights : List PyVal)
    (hs : en.isStr = true)
    (hp : parse_variants vs = .ok (keys, values, weights)) :
    split en vs ident (some e) e2 stored draw
      = (if pySetEq e.variants keys then
          ((assign_and_return keys values ident e stored draw).1,
           Call.getExperiment en.asStr keys
             :: (assign_and_return keys values ident e stored draw).2)
        else
          (.error (.configurationError mismatchMsg),
           [Call.getExperiment en.asStr keys])) := by
  unfold split
  rw [if_neg (not_not_intro hs), hp]

theorem assign_stored_eq (keys values : List PyVal) (ident : PyVal)
    (e : Experiment) (k draw : PyVal) :
    assign_and_return keys values ident e (some k) draw
      = (match dictLookup (keys.zip values) k with
         | some r => (Except.ok r : Except CleaverError PyVal)
         | none => .error .keyError,
         [Call.getVariant ident e.name]) := rfl

theorem assign_stored_ok (keys values : List PyVal) (ident : PyVal)
    (e : Experiment) (k draw v : PyVal)
    (h : (assign_and_return keys values ident e (some k) draw).1 = .ok v) :
    dictLookup (keys.zip values) k = some v := by
  have h2 : (match dictLookup (keys.zip values) k with
      | some r => (Except.ok r : Except CleaverError PyVal)
      | none => .error .keyError) = .ok v := h
  cases hd : dictLookup (keys.zip values) k with
  | none => rw [hd] at h2; cases h2
  | some r => rw [hd] at h2; injection h2 with h2; subst h2; rfl

/-! ## Claim theorems -/

/-- C5: for every split call given exactly one variant declaration, the
operation fails with a `ConfigurationError` and performs no backend
call (the arity check when the name is a string, the name check
otherwise — both are configuration errors). -/
theorem single_variant_fails (en : PyVal) (d : Decl) (ident : PyVal)
    (e1 e2 : Option Experiment) (stored : Option PyVal) (draw : PyVal) :
    ∃ m, split en [d] ident e1 e2 stored draw
      = (.error (.configurationError m), []) := by
  by_cases hs : en.isStr = true
  · refine ⟨arityErrMsg, ?_⟩
    have hp : parse_variants [d] = .error (.configurationError arityErrMsg) := rfl
    unfold split
    rw [if_neg (not_not_intro hs), hp]
  · refine ⟨nameErrMsg, ?_⟩
    unfold split
    rw [if_pos hs]

/-- C6: for every split call whose experiment name is not a string, the
call fails with a `ConfigurationError` and the backend-call trace is
empty — no backend interaction takes place, and the result does not
depend on the identity or on any backend response. -/
theorem nonstring_name_fails (en : PyVal) (vs : List Decl) (ident : PyVal)
    (e1 e2 : Option Experiment) (stored : Option PyVal) (draw : PyVal)
    (h : en.isStr = false) :
    split en vs ident e1 e2 stored draw
      = (.error (.configurationError nameErrMsg), []) := by
  unfold split
  rw [if_pos (by simp [h])]

/-- C6 witness: the theorem applied at the non-string name `3`. -/
theorem nonstring_name_fails_witness :
    split (.int 3) [] (.str "u") Option.none Option.none Option.none (.str "x")
      = (.error (.configurationError nameErrMsg), []) :=
  nonstring_name_fails (.int 3) [] (.str "u") Option.none Option.none
    Option.none (.str "x") rfl

/-- C8: `score` resolves the identity's variant via the backend and
delegates to the backend's `score` with exactly that lookup result —
even an absent (`none`) variant raises no engine-level error, and the
backend `score` call happens exactly once. -/
theorem score_delegates (en : String) (ident : PyVal) (stored : Option PyVal) :
    (score en ident stored).1 = .ok ()
    ∧ (score en ident stored).2
        = [Call.getVariant ident en, Call.scoreConv en stored]
    ∧ (score en ident stored).2.countP Call.isScoreConv = 1 :=
  ⟨rfl, rfl, rfl⟩

/-- C2 counterexample: `parse([("a",1,0),("b",2,1)])` does *not* fail —
the code checks only that each weight is an `int`, never that it is
positive, so the zero weight is accepted and survives into the parsed
weight sequence. -/
theorem zero_weight_parse_succeeds :
    parse_variants [Decl.three (.str "a") (.int 1) (.int 0),
                    Decl.three (.str "b") (.int 2) (.int 1)]
      = .ok ([.str "a", .str "b"], [.int 1, .int 2], [.int 0, .int 1]) := rfl

/-- C2 (amended): if any declaration's (defaulted) weight is not an
integer, parsing fails with a `ConfigurationError`; positivity of
integer weights is not validated. -/
theorem nonint_weight_parse_fails (vs : List Decl)
    (h : ∃ d ∈ vs, d.weight.isInt = false) :
    ∃ m, parse_variants vs = .error (.configurationError m) := by
  obtain ⟨d, hd, hw⟩ := h
  have hne : vs ≠ [] := by rintro rfl; cases hd
  have hev : effectiveVariants vs = vs := effectiveVariants_of_ne_nil vs hne
  unfold parse_variants
  rw [hev]
  by_cases hl : vs.length = 1
  · rw [if_pos hl]
    exact ⟨arityErrMsg, rfl⟩
  · rw [if_neg hl]
    cases hm : mapExcept add_defaults vs with
    | error e =>
      obtain ⟨m, rfl⟩ := mapExcept_error_config vs e hm
      exact ⟨m, rfl⟩
    | ok ts =>
      have hint := (mapExcept_ok_all vs ts hm d hd).2
      rw [hw] at hint
      cases hint

/-- C2 witness: a string weight makes parsing fail. -/
theorem nonint_weight_parse_fails_witness :
    ∃ m, parse_variants [Decl.three (.str "a") (.int 1) (.str "x"),
                         Decl.two (.str "b") (.int 2)]
      = .error (.configurationError m) :=
  nonint_weight_parse_fails
    [Decl.three (.str "a") (.int 1) (.str "x"), Decl.two (.str "b") (.int 2)]
    (by decide)

/-- C1: when the backend already has a variant `k` assigned to the
current identity for this experiment (and `k` is among the declared
keys), `split` returns the value associated with `k`, its backend trace
contains no `participate` call (the experiment-phase reads followed by
the single `get_variant` read only), and the outcome is identical for
any two values of the random-draw oracle — no new draw influences the
result. -/
theorem sticky_assignment (en : PyVal) (vs : List Decl) (ident : PyVal)
    (e1 e2 : Option Experiment) (e : Experiment) (k v draw draw2 : PyVal)
    (keys values weights : List PyVal)
    (hs : en.isStr = true)
    (hp : parse_variants vs = .ok (keys, values, weights))
    (he : resolvedExperiment e1 e2 keys = some e)
    (hk : k ∈ keys)
    (hv : dictLookup (keys.zip values) k = some v) :
    split en vs ident e1 e2 (some k) draw
      = (.ok v, expPhaseTrace en.asStr keys e1 ++ [Call.getVariant ident e.name])
    ∧ split en vs ident e1 e2 (some k) draw
      = split en vs ident e1 e2 (some k) draw2 := by
  have hassign : ∀ d : PyVal,
      assign_and_return keys values ident e (some k) d
        = (.ok v, [Call.getVariant ident e.name]) := by
    intro d
    rw [assign_stored_eq, hv]
  have main : ∀ d : PyVal, split en vs ident e1 e2 (some k) d
      = (.ok v, expPhaseTrace en.asStr keys e1 ++ [Call.getVariant ident e.name]) := by
    intro d
    cases e1 with
    | none =>
      have he2 : e2 = some e := he
      subst he2
      rw [split_eq_none_some en vs ident e (some k) d keys values weights hs hp,
          hassign d]
      rfl
    | some e' =>
      have he' : (if pySetEq e'.variants keys then some e' else Option.none)
          = some e := he
      by_cases hset : pySetEq e'.variants keys = true
      · rw [if_pos hset] at he'
        injection he' with he'
        rw [he'] at hset ⊢
        rw [split_eq_some en vs ident e e2 (some k) d keys values weights hs hp,
            if_pos hset, hassign d]
        rfl
      · rw [if_neg hset] at he'
        cases he'
  exact ⟨main draw, (main draw).trans (main draw2).symm⟩

/-- C1 witness: identity `u` already holds variant `a` of experiment
`exp` with declarations `("a",1),("b",2)`; both draw oracles give the
same outcome `1` and a participate-free trace. -/
theorem sticky_assignment_witness :
    split (.str "exp") [Decl.two (.str "a") (.int 1), Decl.two (.str "b") (.int 2)]
        (.str "u") (some ⟨"exp", [.str "a", .str "b"]⟩) Option.none
        (some (.str "a")) (.str "b")
      = (.ok (.int 1),
         expPhaseTrace "exp" [.str "a", .str "b"]
             (some ⟨"exp", [.str "a", .str "b"]⟩)
           ++ [Call.getVariant (.str "u") "exp"])
    ∧ split (.str "exp") [Decl.two (.str "a") (.int 1), Decl.two (.str "b") (.int 2)]
        (.str "u") (some ⟨"exp", [.str "a", .str "b"]⟩) Option.none
        (some (.str "a")) (.str "b")
      = split (.str "exp") [Decl.two (.str "a") (.int 1), Decl.two (.str "b") (.int 2)]
          (.str "u") (some ⟨"exp", [.str "a", .str "b"]⟩) Option.none
          (some (.str "a")) (.str "a") :=
  sticky_assignment (.str "exp")
    [Decl.two (.str "a") (.int 1), Decl.two (.str "b") (.int 2)]
    (.str "u") (some ⟨"exp", [.str "a", .str "b"]⟩) Option.none
    ⟨"exp", [.str "a", .str "b"]⟩ (.str "a") (.int 1) (.str "b") (.str "a")
    [.str "a", .str "b"] [.int 1, .int 2] [.int 1, .int 1]
    rfl rfl (by decide) (by decide) (by decide)

/-- C3: on a split call whose experiment already exists in the backend,
a stored variant-key set differing from the declared keys (as unordered
sets) makes `split` fail with a `ConfigurationError`, the trace being
the single read — no merge, no write; when the two sets agree, in any
order, `split` never fails with a `ConfigurationError`. -/
theorem experiment_consistency (en : PyVal) (vs : List Decl) (ident : PyVal)
    (e : Experiment) (e2 : Option Experiment) (stored : Option PyVal) (draw : PyVal)
    (keys values weights : List PyVal)
    (hs : en.isStr = true)
    (hp : parse_variants vs = .ok (keys, values, weights)) :
    ((¬ ∀ x, x ∈ e.variants ↔ x ∈ keys) →
        split en vs ident (some e) e2 stored draw
          = (.error (.configurationError mismatchMsg),
             [Call.getExperiment en.asStr keys]))
    ∧ ((∀ x, x ∈ e.variants ↔ x ∈ keys) →
        ∀ m, (split en vs ident (some e) e2 stored draw).1
            ≠ .error (.configurationError m)) := by
  have heq := split_eq_some en vs ident e e2 stored draw keys values weights hs hp
  constructor
  · intro hne
    have hset : pySetEq e.variants keys = false := by
      rcases Bool.eq_false_or_eq_true (pySetEq e.variants keys) with ht | hf
      · exact absurd ((pySetEq_iff _ _).mp ht) hne
      · exact hf
    rw [heq, if_neg (by simp [hset])]
  · intro hiff m
    have hset : pySetEq e.variants keys = true := (pySetEq_iff _ _).mpr hiff
    rw [heq, if_pos hset]
    intro hbad
    exact assign_no_config_error keys values ident e stored draw m hbad

/-- C3 witness: experiment `e` stored with keys `{a,b}`, re-declared
with `{a,c}` — the call fails with the mismatch `ConfigurationError`
after the single backend read. -/
theorem experiment_consistency_witness :
    split (.str "e") [Decl.two (.str "a") (.int 1), Decl.two (.str "c") (.int 3)]
        (.str "u") (some ⟨"e", [.str "a", .str "b"]⟩) Option.none Option.none
        (.str "a")
      = (.error (.configurationError mismatchMsg),
         [Call.getExperiment "e" [.str "a", .str "c"]]) :=
  (experiment_consistency (.str "e")
      [Decl.two (.str "a") (.int 1), Decl.two (.str "c") (.int 3)]
      (.str "u") ⟨"e", [.str "a", .str "b"]⟩ Option.none Option.none (.str "a")
      [.str "a", .str "c"] [.int 1, .int 3] [.int 1, .int 1]
      rfl rfl).1
    (fun hall =>
      absurd ((hall (PyVal.str "b")).mp (by decide)) (by decide))

/-- C4: with zero declarations the parser synthesizes exactly the
`True`/`False` pair with weight 1 each, and consequently every
successful `split` call with no declarations returns the boolean
`True` or `False` and never any other value. -/
theorem default_split_boolean :
    parse_variants []
      = .ok ([.str "True", .str "False"], [.bool true, .bool false],
             [.int 1, .int 1])
    ∧ ∀ (en ident : PyVal) (e1 e2 : Option Experiment) (stored : Option PyVal)
        (draw v : PyVal),
        (split en [] ident e1 e2 stored draw).1 = .ok v →
        v = .bool true ∨ v = .bool false := by
  refine ⟨rfl, ?_⟩
  intro en ident e1 e2 stored draw v h
  by_cases hs : en.isStr = true
  · have hv : v ∈ [PyVal.bool true, PyVal.bool false] := by
      cases e1 with
      | none =>
        cases e2 with
        | none =>
          rw [split_eq_none_none en [] ident stored draw
            [.str "True", .str "False"] [.bool true, .bool false]
            [.int 1, .int 1] hs rfl] at h
          cases h
        | some e =>
          rw [split_eq_none_some en [] ident e stored draw
            [.str "True", .str "False"] [.bool true, .bool false]
            [.int 1, .int 1] hs rfl] at h
          exact assign_ok_mem [.str "True", .str "False"]
            [.bool true, .bool false] ident e stored draw v h
      | some e =>
        rw [split_eq_some en [] ident e e2 stored draw
          [.str "True", .str "False"] [.bool true, .bool false]
          [.int 1, .int 1] hs rfl] at h
        by_cases hset :
            pySetEq e.variants [PyVal.str "True", PyVal.str "False"] = true
        · rw [if_pos hset] at h
          exact assign_ok_mem [.str "True", .str "False"]
            [.bool true, .bool false] ident e stored draw v h
        · rw [if_neg hset] at h
          cases h
    rcases List.mem_cons.mp hv with rfl | hv
    · exact Or.inl rfl
    · rcases List.mem_cons.mp hv with rfl | hv
      · exact Or.inr rfl
      · cases hv
  · unfold split at h
    rw [if_pos hs] at h
    cases h

/-- C4 witness: a concrete no-declaration split returning `True`. -/
theorem default_split_boolean_witness :
    PyVal.bool true = PyVal.bool true ∨ PyVal.bool true = PyVal.bool false :=
  default_split_boolean.2 (.str "flag") (.str "u")
    (some ⟨"flag", [.str "True", .str "False"]⟩) Option.none
    (some (.str "True")) (.str "False") (.bool true) rfl

/-- C7: when the backend reports the experiment absent, `split` creates
it and re-reads it — the trace starts with read, create, re-read with
the parsed keys — and the rest of the operation is driven by the
re-read record `e` (the very next call, `get_variant`, already uses
`e.name`). -/
theorem create_then_reread (en : PyVal) (vs : List Decl) (ident : PyVal)
    (e : Experiment) (stored : Option PyVal) (draw : PyVal)
    (keys values weights : List PyVal)
    (hs : en.isStr = true)
    (hp : parse_variants vs = .ok (keys, values, weights)) :
    split en vs ident Option.none (some e) stored draw
      = ((assign_and_return keys values ident e stored draw).1,
         [Call.getExperiment en.asStr keys, Call.saveExperiment en.asStr keys,
          Call.getExperiment en.asStr keys]
           ++ (assign_and_return keys values ident e stored draw).2)
    ∧ (assign_and_return keys values ident e stored draw).2.head?
        = some (Call.getVariant ident e.name) := by
  refine ⟨?_, ?_⟩
  · exact split_eq_none_some en vs ident e stored draw keys values weights hs hp
  · unfold assign_and_return
    cases stored <;> rfl

/-- C7 witness: the theorem at a concrete absent-then-created run. -/
theorem create_then_reread_witness :
    split (.str "e") [Decl.two (.str "a") (.int 1), Decl.two (.str "b") (.int 2)]
        (.str "u") Option.none (some ⟨"e", [.str "a", .str "b"]⟩)
        (some (.str "a")) (.str "b")
      = ((assign_and_return [.str "a", .str "b"] [.int 1, .int 2] (.str "u")
            ⟨"e", [.str "a", .str "b"]⟩ (some (.str "a")) (.str "b")).1,
         [Call.getExperiment "e" [.str "a", .str "b"],
          Call.saveExperiment "e" [.str "a", .str "b"],
          Call.getExperiment "e" [.str "a", .str "b"]]
           ++ (assign_and_return [.str "a", .str "b"] [.int 1, .int 2] (.str "u")
                 ⟨"e", [.str "a", .str "b"]⟩ (some (.str "a")) (.str "b")).2)
    ∧ (assign_and_return [.str "a", .str "b"] [.int 1, .int 2] (.str "u")
         ⟨"e", [.str "a", .str "b"]⟩ (some (.str "a")) (.str "b")).2.head?
        = some (Call.getVariant (.str "u") "e") :=
  create_then_reread (.str "e")
    [Decl.two (.str "a") (.int 1), Decl.two (.str "b") (.int 2)]
    (.str "u") ⟨"e", [.str "a", .str "b"]⟩ (some (.str "a")) (.str "b")
    [.str "a", .str "b"] [.int 1, .int 2] [.int 1, .int 1] rfl rfl

/-- C9 counterexample: the parser admits a declaration list whose two
declarations share the key `"a"` — keys are *not* unique by
construction (the duplicated key occurs twice in the parsed sequence). -/
theorem duplicate_keys_admitted :
    parse_variants [Decl.two (.str "a") (.int 1), Decl.two (.str "a") (.int 2)]
      = .ok ([.str "a", .str "a"], [.int 1, .int 2], [.int 1, .int 1])
    ∧ [PyVal.str "a", PyVal.str "a"].count (PyVal.str "a") = 2 :=
  ⟨rfl, rfl⟩

theorem assign_resolved_ok (keys values : List PyVal) (ident : PyVal)
    (e : Experiment) (stored : Option PyVal) (draw v : PyVal)
    (h : (assign_and_return keys values ident e stored draw).1 = .ok v) :
    dictLookup (keys.zip values) (stored.getD draw) = some v := by
  cases stored with
  | some k => exact assign_stored_ok keys values ident e k draw v h
  | none =>
    have h2 : (match dictLookup (keys.zip values) draw with
        | some r => (Except.ok r : Except CleaverError PyVal)
        | none => .error .keyError) = .ok v := h
    show dictLookup (keys.zip values) draw = some v
    cases hd : dictLookup (keys.zip values) draw with
    | none => rw [hd] at h2; cases h2
    | some r => rw [hd] at h2; injection h2 with h2; subst h2; rfl

/-- C9 (amended): the key-to-value lookup follows Python dict
semantics — for every successful `split`, on either resolution path
(backend-stored variant, or fresh draw when the backend has none), the
resolved key is `stored.getD draw` and the returned value is the one
paired with its *last* occurrence in the parsed parallel sequences (no
occurrence of the resolved key follows it). -/
theorem split_returns_last_occurrence (en : PyVal) (vs : List Decl) (ident : PyVal)
    (e1 e2 : Option Experiment) (stored : Option PyVal) (draw v : PyVal)
    (keys values weights : List PyVal)
    (hs : en.isStr = true)
    (hp : parse_variants vs = .ok (keys, values, weights))
    (hres : (split en vs ident e1 e2 stored draw).1 = .ok v) :
    ∃ pre post, keys.zip values = pre ++ (stored.getD draw, v) :: post
      ∧ ∀ q ∈ post, q.1 ≠ stored.getD draw := by
  have hdl : dictLookup (keys.zip values) (stored.getD draw) = some v := by
    cases e1 with
    | none =>
      cases e2 with
      | none =>
        rw [split_eq_none_none en vs ident stored draw keys values weights
          hs hp] at hres
        cases hres
      | some e =>
        rw [split_eq_none_some en vs ident e stored draw keys values weights
          hs hp] at hres
        exact assign_resolved_ok keys values ident e stored draw v hres
    | some e =>
      rw [split_eq_some en vs ident e e2 stored draw keys values weights
        hs hp] at hres
      by_cases hset : pySetEq e.variants keys = true
      · rw [if_pos hset] at hres
        exact assign_resolved_ok keys values ident e stored draw v hres
      · rw [if_neg hset] at hres
        cases hres
  exact dictLookup_last _ _ _ hdl

/-- C9 witness: the fresh-draw path — no stored variant, the draw
oracle yields the duplicated key `"a"` mapping to values `1` then `2`;
the resolved value is `2`, the one paired with the last occurrence. -/
theorem split_returns_last_occurrence_witness :
    ∃ pre post,
      ([PyVal.str "a", PyVal.str "a"].zip [PyVal.int 1, PyVal.int 2])
        = pre ++ ((Option.none : Option PyVal).getD (PyVal.str "a"),
                  PyVal.int 2) :: post
      ∧ ∀ q ∈ post, q.1 ≠ (Option.none : Option PyVal).getD (PyVal.str "a") :=
  split_returns_last_occurrence (.str "e")
    [Decl.two (.str "a") (.int 1), Decl.two (.str "a") (.int 2)]
    (.str "u") (some ⟨"e", [.str "a", .str "a"]⟩) Option.none
    Option.none (.str "a") (.int 2)
    [.str "a", .str "a"] [.int 1, .int 2] [.int 1, .int 1]
    rfl rfl rfl

/-- C10: whenever `split` fails with a `ConfigurationError`, its
backend-call trace contains no write — neither `save_experiment` nor
`participate` has been performed by that call. -/
theorem config_error_no_write (en : PyVal) (vs : List Decl) (ident : PyVal)
    (e1 e2 : Option Experiment) (stored : Option PyVal) (draw : PyVal) (m : String)
    (h : (split en vs ident e1 e2 stored draw).1
        = .error (.configurationError m)) :
    ∀ c ∈ (split en vs ident e1 e2 stored draw).2, c.isWrite = false := by
  by_cases hs : en.isStr = true
  · cases hp : parse_variants vs with
    | error err =>
      have hsplit : split en vs ident e1 e2 stored draw = (.error err, []) := by
        unfold split
        rw [if_neg (not_not_intro hs), hp]
      rw [hsplit]
      simp
    | ok triple =>
      obtain ⟨keys, values, weights⟩ := triple
      cases e1 with
      | none =>
        cases e2 with
        | none =>
          rw [split_eq_none_none en vs ident stored draw keys values weights
            hs hp] at h
          injection h with h2
          cases h2
        | some e =>
          rw [split_eq_none_some en vs ident e stored draw keys values weights
            hs hp] at h
          exact absurd h (assign_no_config_error keys values ident e stored draw m)
      | some e =>
        rw [split_eq_some en vs ident e e2 stored draw keys values weights
          hs hp] at h ⊢
        by_cases hset : pySetEq e.variants keys = true
        · rw [if_pos hset] at h
          exact absurd h (assign_no_config_error keys values ident e stored draw m)
        · rw [if_neg hset]
          intro c hc
          rcases List.mem_cons.mp hc with rfl | hc
          · rfl
          · cases hc
  · have hsplit : split en vs ident e1 e2 stored draw
        = (.error (.configurationError nameErrMsg), []) := by
      unfold split
      rw [if_pos hs]
    rw [hsplit]
    simp

/-- C10 witness: in the concrete mismatch failure, the only backend
call in the trace is the read, which is not a write. -/
theorem config_error_no_write_witness :
    Call.isWrite (Call.getExperiment "e" [PyVal.str "a", PyVal.str "c"]) = false :=
  config_error_no_write (.str "e")
    [Decl.two (.str "a") (.int 1), Decl.two (.str "c") (.int 3)]
    (.str "u") (some ⟨"e", [.str "a", .str "b"]⟩) Option.none Option.none
    (.str "a") mismatchMsg rfl
    (Call.getExperiment "e" [.str "a", .str "c"]) (by decide)

end Cleaver
